import Mathlib

/-!
Verification of the audio capture and voice-activity segmentation engine of
`core/audio_input.py` (class `VoiceActivityDetector` and class `AudioInput`).

The embedding is shallow: each Python function is translated into a Lean
function over explicit state.  Conventions used throughout:

* An audio frame delivered by the device is an `AFrame`: its raw bytes
  (`List Nat`, one entry per byte) together with the Bool that
  `self.vad.is_speech` returns for it when the capture loop classifies it.
  The capture-loop claims quantify over arbitrary classification outcomes,
  so the classifier result is part of the input.
* Python floats are modelled as rationals.  Every concrete configuration
  used in a theorem is chosen so that the float comparisons performed by
  the source evaluate identically to the rational ones (exact binary
  fractions, or comparisons whose two sides are far apart).
* `time.time()`-based timeout exits and `stream.read` exceptions end the
  source loops; in the embedding the finite input list ending plays that
  role: the loop functions consume the frames that arrived before the exit.
* Python exceptions that the source catches are modelled as the caught
  branch (the function returns the fallback value); fallible external
  collaborators (the webrtcvad detector, the filesystem) are parameters
  returning `Except`/`Bool` outcomes.
* `np.sqrt (np.mean (np.square frame))` is an external numpy computation;
  its value on a decoded non-empty frame is abstracted as a parameter
  `rmsOf : List Int → ℚ` (an RMS is always non-negative, which is the only
  property the claims use, carried as an explicit hypothesis).  The NaN
  produced on an empty frame is modelled explicitly: no threshold update
  (NaN comparisons are false) and a Silence classification.
-/

/-- Python `int()` on a finite non-negative or negative rational:
truncation toward zero. -/
def pyInt (q : ℚ) : Int :=
  if q < 0 then -((-q).num.ediv (-q).den) else q.num.ediv q.den

/-- Floor of a rational as an integer (denominator is always positive). -/
def ratFloor (q : ℚ) : Int := q.num.ediv q.den

/-- Ceiling of a rational as an integer. -/
def ratCeil (q : ℚ) : Int := -(ratFloor (-q))

/-- Python list slice `l[-n:]` for a non-negative `n`: the last `n`
elements, except that `n = 0` (Python `-0 == 0`) yields the whole list. -/
def pySliceTail (l : List α) (n : Nat) : List α :=
  if n = 0 then l else l.drop (l.length - n)

/-- The fields of `AudioConfig` that the verified operations read.
`timeout` and the device fields only govern when the real-time loops stop
consuming frames, which the finite input lists model. -/
structure MCfg where
  sample_rate : ℚ
  channels : ℚ
  chunk_size : ℚ
  speech_pad_start : ℚ
  speech_pad_end : ℚ
  vad_enabled : Bool
deriving DecidableEq

/-- One device chunk: its raw bytes and the speech/silence classification
that `self.vad.is_speech` returns for it in the capture loop. -/
structure AFrame where
  data : List Nat
  speech : Bool
deriving DecidableEq

/-- `VoiceActivityDetector._update_energy_threshold`: the adaptive floor
update, applied only when the observed energy is strictly below the
current threshold. -/
def update_energy_threshold (thr e : ℚ) : ℚ :=
  if e < thr then 0.95 * thr + 0.05 * (1.5 * e) else thr

/-- The tail of `VoiceActivityDetector._is_speech_energy` once the frame
has been decoded and its RMS energy `e` computed: optionally update the
dynamic threshold, then classify against the (updated) threshold.
Returns the classification and the new threshold. -/
def is_speech_energy_rms (dyn : Bool) (thr e : ℚ) : Bool × ℚ :=
  let thr1 := if dyn then update_energy_threshold thr e else thr
  (decide (e > thr1), thr1)

/-- Threshold evolution over a sequence of observed frame energies. -/
def run_energy_floors (dyn : Bool) (thr : ℚ) (es : List ℚ) : ℚ :=
  es.foldl (fun t e => (is_speech_energy_rms dyn t e).2) thr

/-- Mutable state of `VoiceActivityDetector` for the energy strategy:
`self._energy_threshold` and `self._dynamic_threshold`. -/
structure VADState where
  energy_threshold : ℚ
  dynamic : Bool
deriving DecidableEq

/-- Little-endian signed 16-bit decoding of a byte list, as
`np.frombuffer(frame, dtype=np.int16)` produces on an even-length buffer. -/
def bytesToInt16 : List Nat → List Int
  | lo :: hi :: rest =>
      (if lo + 256 * hi ≥ 32768 then (lo + 256 * hi : Int) - 65536
       else (lo + 256 * hi : Int)) :: bytesToInt16 rest
  | _ => []

/-- `np.frombuffer` with `dtype=np.int16` (the default `int16` format):
raises `ValueError` on a buffer whose length is not a multiple of the
sample width, modelled as `none`. -/
def frombuffer_int16 (b : List Nat) : Option (List Int) :=
  if b.length % 2 = 0 then some (bytesToInt16 b) else none

/-- `VoiceActivityDetector._is_speech_energy` on raw bytes.  A decode
failure is the caught `except` branch: classify Silence, threshold
untouched.  An empty decoded frame gives NaN energy: the dynamic update
comparison and the classification comparison are both false, so the
threshold is untouched and the frame is Silence.  Otherwise the RMS value
`rmsOf samples` is fed to `is_speech_energy_rms`. -/
def is_speech_energy (rmsOf : List Int → ℚ) (st : VADState) (b : List Nat) :
    Bool × VADState :=
  match frombuffer_int16 b with
  | none => (false, st)
  | some [] => (false, st)
  | some (s :: rest) =>
      let r := is_speech_energy_rms st.dynamic st.energy_threshold (rmsOf (s :: rest))
      (r.1, ⟨r.2, st.dynamic⟩)

/-- `VoiceActivityDetector.is_speech`: when a webrtcvad detector is
loaded (`some det`) delegate to it, falling back to the energy strategy
on any internal detector failure; when no detector is available use the
energy strategy directly. -/
def is_speech (rmsOf : List Int → ℚ)
    (det : Option (List Nat → Except String Bool)) (st : VADState)
    (b : List Nat) : Bool × VADState :=
  match det with
  | some d =>
      match d b with
      | Except.ok r => (r, st)
      | Except.error _ => is_speech_energy rmsOf st b
  | none => is_speech_energy rmsOf st b

/-- Python truthiness of the `max_frames and len(frames) >= max_frames`
guard: `None` and `0` are falsy, so those values impose no frame cap. -/
def maxFramesReached (mf : Option Nat) (n : Nat) : Bool :=
  match mf with
  | none => false
  | some m => decide (m ≠ 0) && decide (m ≤ n)

/-- Number of frames of lead-in padding the source slices for:
`int(speech_pad_start * sample_rate / chunk_size)`. -/
def padFrames (cfg : MCfg) : Nat :=
  (pyInt (cfg.speech_pad_start * cfg.sample_rate / cfg.chunk_size)).toNat

/-- The `while` loop of `AudioInput._capture_manual`, consuming the chunks
that `stream.read` yields before the loop exits (a timeout check or a read
exception ends the list).  State: `sd` is `speech_detected`, `sil` is
`silence_frames`, `frames` is the accumulated list.  On the first Speech
classification the source extends `frames` with its own last
`padFrames cfg` elements, then every frame from that point on is appended;
a run of trailing silence longer than `speech_pad_end` seconds, or the
`max_frames` cap, ends the loop. -/
def capture_manual_loop (cfg : MCfg) (mf : Option Nat) :
    List AFrame → Bool → Nat → List AFrame → List AFrame
  | [], _, _, frames => frames
  | f :: rest, sd, sil, frames =>
    if sd || f.speech then
      let frames2 := (if sd then frames
                      else frames ++ pySliceTail frames (padFrames cfg)) ++ [f]
      let sil2 := if f.speech then 0 else sil + 1
      if (sil2 : ℚ) * cfg.chunk_size / cfg.sample_rate > cfg.speech_pad_end then
        frames2
      else if maxFramesReached mf frames2.length then frames2
      else capture_manual_loop cfg mf rest true sil2 frames2
    else
      if maxFramesReached mf frames.length then frames
      else capture_manual_loop cfg mf rest sd sil frames

/-- `AudioInput._capture_manual` at the granularity of whole frames:
the list of chunks whose bytes the call returns. -/
def capture_manual_frames (cfg : MCfg) (mf : Option Nat)
    (input : List AFrame) (wait_for_speech : Bool) : List AFrame :=
  capture_manual_loop cfg mf input (!wait_for_speech) 0 []

/-- `AudioInput._capture_manual`: `None` when no frame was kept, otherwise
the concatenation `b''.flatten(frames)`. -/
def capture_manual (cfg : MCfg) (mf : Option Nat)
    (input : List AFrame) (wait_for_speech : Bool) : Option (List Nat) :=
  let fs := capture_manual_frames cfg mf input wait_for_speech
  if fs.isEmpty then none else some (fs.map AFrame.data).flatten

/-- `AudioInput._audio_callback`: invoked by the driver for each new
chunk; appends it to the shared buffer when the chunk is classified as
speech or `self.is_recording` is set (which `start_stream` sets). -/
def audio_callback (stop_requested is_recording : Bool)
    (buffer : List AFrame) (f : AFrame) : List AFrame :=
  if stop_requested then buffer
  else if f.speech || is_recording then buffer ++ [f] else buffer

/-- Exit value of `AudioInput._capture_with_vad`: on every exit path
(timeout, frame cap, or end-of-speech silence) the function returns
`b''.flatten(self.buffer)` when the buffer is non-empty and `None` otherwise.
`arrived` is the chunk sequence the device delivered to
`_audio_callback` (with `stop_requested` still false) between the buffer
clear at the start of `capture_audio` and the loop exit. -/
def capture_with_vad_exit (is_recording : Bool) (arrived : List AFrame) :
    Option (List Nat) :=
  let buf := arrived.foldl (audio_callback false is_recording) []
  if buf.isEmpty then none else some (buf.map AFrame.data).flatten

/-- Session state of `AudioInput` relevant to stream lifecycle: the
stream handle, the `pa_instance` PyAudio handle, and the two flags. -/
structure Session where
  stream : Option Unit
  pa_instance : Option Unit
  is_recording : Bool
  stop_requested : Bool
  buffer : List AFrame
deriving DecidableEq

/-- Release operations a `stop_stream` call performs on live handles. -/
inductive StopAction where
  | closeStream
  | terminatePA
deriving DecidableEq

/-- `AudioInput.stop_stream`: set the flags, close the stream handle if
one is live, terminate the PyAudio handle if one is live, and clear both
fields (the `finally` blocks run even when close or terminate raises).
The returned list records which release operations ran. -/
def stop_stream (s : Session) : Session × List StopAction :=
  let acts := (if s.stream.isSome then [StopAction.closeStream] else []) ++
              (if s.pa_instance.isSome then [StopAction.terminatePA] else [])
  ({ s with stop_requested := true, is_recording := false,
            stream := none, pa_instance := none }, acts)

/-- External circumstances of a `start_stream` attempt: whether the
`pyaudio` import succeeded at construction time, and whether
`pa.open(...)` succeeds for the configured device. -/
structure AudioEnv where
  pyaudio_available : Bool
  open_succeeds : Bool
deriving DecidableEq

/-- `AudioInput.start_stream`: `False` when PyAudio is unavailable;
otherwise stop any running stream first, then try to open the device.
On success the stream handle is stored and the flags set; the caught
`except` branch terminates the fresh PyAudio handle, clears the stream
field and reports `False`. -/
def start_stream (env : AudioEnv) (s : Session) : Bool × Session :=
  if env.pyaudio_available = false then (false, s)
  else
    let s1 := if s.stream.isSome then (stop_stream s).1 else s
    if env.open_succeeds then
      (true, { s1 with stream := some (), pa_instance := some (),
                       is_recording := true, stop_requested := false })
    else
      (false, { s1 with stream := none, pa_instance := some () })

/-- `max_frames` as computed by `AudioInput.capture_audio`:
`int(duration * (sample_rate * channels * 2) / chunk_size)` when a truthy
`duration` was passed (`None` and `0` leave the capture uncapped). -/
def max_frames_of (cfg : MCfg) (duration : Option ℚ) : Option Nat :=
  match duration with
  | none => none
  | some d =>
      if d = 0 then none
      else some (pyInt (d * (cfg.sample_rate * cfg.channels * 2) / cfg.chunk_size)).toNat

/-- Body of `AudioInput.capture_audio` once a stream is live: clear the
shared buffer, derive `max_frames`, and dispatch on `config.vad_enabled`
to the callback-mode or the manual capture routine.  `incoming` is the
chunk sequence the device yields during this call. -/
def capture_after_start (cfg : MCfg) (s : Session) (duration : Option ℚ)
    (wait_for_speech : Bool) (incoming : List AFrame) :
    Option (List Nat) × Session :=
  let s2 := { s with buffer := [] }
  let mf := max_frames_of cfg duration
  if cfg.vad_enabled then (capture_with_vad_exit s2.is_recording incoming, s2)
  else (capture_manual cfg mf incoming wait_for_speech, s2)

/-- `AudioInput.capture_audio`: when no stream is open, first attempt
`start_stream`; a failed attempt returns `None` immediately. -/
def capture_audio_model (cfg : MCfg) (env : AudioEnv) (s : Session)
    (duration : Option ℚ) (wait_for_speech : Bool) (incoming : List AFrame) :
    Option (List Nat) × Session :=
  if s.stream.isNone then
    let r := start_stream env s
    if r.1 then capture_after_start cfg r.2 duration wait_for_speech incoming
    else (none, r.2)
  else capture_after_start cfg s duration wait_for_speech incoming

/-- A WAV file as `AudioInput.save_audio` writes it: channel count,
2-byte sample width, frame rate, and the raw sample bytes. -/
structure WavFile where
  nchannels : ℚ
  sampwidth : Nat
  framerate : ℚ
  contents : List Nat
deriving DecidableEq

/-- `AudioInput.save_audio`: falsy audio data (absent or empty) returns
`False` with no file written; otherwise the WAV file is written, with the
caught `except` branch (filesystem failure, modelled by `write_ok`)
returning `False`. -/
def save_audio (cfg : MCfg) (write_ok : Bool) (audio : Option (List Nat)) :
    Bool × Option WavFile :=
  match audio with
  | none => (false, none)
  | some [] => (false, none)
  | some (b :: rest) =>
      if write_ok then
        (true, some ⟨cfg.channels, 2, cfg.sample_rate, b :: rest⟩)
      else (false, none)

/-- Number of consecutive Silence-classified frames at the tail of an
accumulated frame list. -/
def tailSilenceCount (l : List AFrame) : Nat :=
  (l.reverse.takeWhile (fun f => !f.speech)).length

/-- Default configuration of `AudioConfig` (16 kHz mono, 1024-sample
chunks, 0.1 s lead-in pad, 0.2 s end-of-speech silence), with the manual
capture path selected.  At these values every float comparison the source
performs agrees with the rational one. -/
def cfg16k : MCfg :=
  { sample_rate := 16000, channels := 1, chunk_size := 1024,
    speech_pad_start := 1 / 10, speech_pad_end := 1 / 5,
    vad_enabled := false }

/-- Configuration whose frame duration (1024 / 16384 = 1/16 s) and
`speech_pad_end = 1/8 s` are exact binary fractions, so the source's
float comparisons are bit-exact; `speech_pad_end` is an integer multiple
of the frame duration. -/
def cfg16384 : MCfg :=
  { sample_rate := 16384, channels := 1, chunk_size := 1024,
    speech_pad_start := 1 / 10, speech_pad_end := 1 / 8,
    vad_enabled := false }

/-- Device input with a Silence chunk at index 0, speech onset at frame
index 1, and four trailing Silence chunks; each chunk's bytes are its
index, so presence in the output identifies the chunk. -/
def onsetInput : List AFrame :=
  [⟨[0], false⟩, ⟨[1], true⟩, ⟨[2], false⟩, ⟨[3], false⟩,
   ⟨[4], false⟩, ⟨[5], false⟩]

/-- Device input with speech onset at index 0 followed by three Silence
chunks. -/
def c4Input : List AFrame :=
  [⟨[1], true⟩, ⟨[2], false⟩, ⟨[3], false⟩, ⟨[4], false⟩]

/-- A chunk that the classifier marks as Speech. -/
def speechChunk : AFrame := ⟨[1], true⟩

/-- The adaptive floor after one observation is non-negative whenever the
current floor and the observed energy are. -/
theorem is_speech_energy_rms_snd_nonneg (dyn : Bool) (thr e : ℚ)
    (h0 : 0 ≤ thr) (h1 : 0 ≤ e) : 0 ≤ (is_speech_energy_rms dyn thr e).2 := by
  cases dyn
  · exact h0
  · show 0 ≤ update_energy_threshold thr e
    unfold update_energy_threshold
    split
    · linarith
    · exact h0

/-- The adaptive floor stays non-negative along any sequence of
non-negative observed energies. -/
theorem run_energy_floors_nonneg (dyn : Bool) (thr : ℚ) (es : List ℚ)
    (h0 : 0 ≤ thr) (h2 : ∀ x ∈ es, 0 ≤ x) :
    0 ≤ run_energy_floors dyn thr es := by
  induction es generalizing thr with
  | nil => simpa [run_energy_floors] using h0
  | cons e rest ih =>
      have he : 0 ≤ e := h2 e (List.mem_cons_self e rest)
      have hrest : ∀ x ∈ rest, 0 ≤ x := fun x hx => h2 x (List.mem_cons_of_mem e hx)
      have hstep := is_speech_energy_rms_snd_nonneg dyn thr e h0 he
      simpa [run_energy_floors] using ih _ hstep hrest

/-- A frame that the energy strategy classifies as Speech leaves the
threshold unchanged. -/
theorem is_speech_energy_rms_speech_preserves (dyn : Bool) (thr e : ℚ)
    (h1 : 0 ≤ e)
    (h : (is_speech_energy_rms dyn thr e).1 = true) :
    (is_speech_energy_rms dyn thr e).2 = thr := by
  cases dyn
  · rfl
  · show update_energy_threshold thr e = thr
    by_cases hlt : e < thr
    · exfalso
      have h' : decide (e > update_energy_threshold thr e) = true := h
      rw [decide_eq_true_eq] at h'
      unfold update_energy_threshold at h'
      rw [if_pos hlt] at h'
      linarith
    · unfold update_energy_threshold
      rw [if_neg hlt]

/-- C6: with a non-negative configured threshold and non-negative RMS
values, the adaptive energy floor is non-negative after every
classification (one step and along any observation sequence), and a frame
classified as Speech never changes the floor. -/
theorem energy_floor_nonneg_and_speech_preserves_floor (dyn : Bool)
    (thr e : ℚ) (es : List ℚ) (h0 : 0 ≤ thr) (h1 : 0 ≤ e)
    (h2 : ∀ x ∈ es, 0 ≤ x) :
    0 ≤ (is_speech_energy_rms dyn thr e).2 ∧
    0 ≤ run_energy_floors dyn thr es ∧
    ((is_speech_energy_rms dyn thr e).1 = true →
      (is_speech_energy_rms dyn thr e).2 = thr) :=
  ⟨is_speech_energy_rms_snd_nonneg dyn thr e h0 h1,
   run_energy_floors_nonneg dyn thr es h0 h2,
   is_speech_energy_rms_speech_preserves dyn thr e h1⟩

/-- C6 witness: floor 300, a Speech frame of RMS 400, and the observation
sequence of energies 0 and 500. -/
theorem energy_floor_nonneg_and_speech_preserves_floor_witness :
    0 ≤ (is_speech_energy_rms true 300 400).2 ∧
    0 ≤ run_energy_floors true 300 [0, 500] ∧
    ((is_speech_energy_rms true 300 400).1 = true →
      (is_speech_energy_rms true 300 400).2 = 300) :=
  energy_floor_nonneg_and_speech_preserves_floor true 300 400 [0, 500]
    (by with_unfolding_all decide) (by with_unfolding_all decide)
    (by with_unfolding_all decide)

/-- C5 counterexample: a frame whose RMS equals the current floor (both
300) is classified Silence yet leaves the floor at 300, while the claimed
update formula would move it to 307.5. -/
theorem floor_unchanged_at_equal_rms :
    is_speech_energy_rms true 300 300 = (false, 300) ∧
    (0.95 * 300 + 0.05 * (1.5 * 300) : ℚ) ≠ 300 := by
  constructor
  · with_unfolding_all decide
  · with_unfolding_all decide

/-- C5 amended: with `dynamic_silence` enabled, a frame whose RMS is
strictly below the current floor is classified Silence and moves the
floor to exactly `0.95*floor + 0.05*(1.5*rms)`; a frame whose RMS equals
the floor is classified Silence but leaves the floor unchanged. -/
theorem floor_update_on_strictly_quieter_frames (thr e : ℚ)
    (h0 : 0 ≤ e) (h1 : e < thr) :
    is_speech_energy_rms true thr e = (false, 0.95 * thr + 0.05 * (1.5 * e)) ∧
    is_speech_energy_rms true thr thr = (false, thr) := by
  have hthr : 0 < thr := lt_of_le_of_lt h0 h1
  constructor
  · have hupd : update_energy_threshold thr e = 0.95 * thr + 0.05 * (1.5 * e) := by
      unfold update_energy_threshold
      rw [if_pos h1]
    have hcls : ¬ (e > 0.95 * thr + 0.05 * (1.5 * e)) := by
      push_neg
      linarith
    show (decide (e > update_energy_threshold thr e), update_energy_threshold thr e) = _
    rw [hupd, decide_eq_false hcls]
  · have hupd : update_energy_threshold thr thr = thr := by
      unfold update_energy_threshold
      rw [if_neg (lt_irrefl thr)]
    show (decide (thr > update_energy_threshold thr thr), update_energy_threshold thr thr) = _
    rw [hupd, decide_eq_false (lt_irrefl thr)]

/-- C5 amended witness: floor 300, a frame of RMS 100. -/
theorem floor_update_on_strictly_quieter_frames_witness :
    is_speech_energy_rms true 300 100 = (false, 0.95 * 300 + 0.05 * (1.5 * 100)) ∧
    is_speech_energy_rms true 300 300 = (false, 300) :=
  floor_update_on_strictly_quieter_frames 300 100 (by with_unfolding_all decide)
    (by with_unfolding_all decide)

/-- C7: an empty frame and a frame whose byte length is not a multiple of
the 16-bit sample width are classified Silence (via the energy strategy,
whether or not a webrtcvad detector is loaded but failing), and an
internal failure of the loaded detector makes `is_speech` agree with the
energy strategy on that frame; the embedding is a total Bool-valued
function, every exception path of the source being a caught branch. -/
theorem is_speech_edge_cases_and_fallback (rmsOf : List Int → ℚ)
    (st : VADState) (b : List Nat) (f : List Nat → Except String Bool) :
    ((b = [] ∨ b.length % 2 ≠ 0) → (is_speech rmsOf none st b).1 = false) ∧
    ((b = [] ∨ b.length % 2 ≠ 0) → ∀ msg, f b = Except.error msg →
      (is_speech rmsOf (some f) st b).1 = false) ∧
    (∀ msg, f b = Except.error msg →
      is_speech rmsOf (some f) st b = is_speech_energy rmsOf st b) := by
  have hfall : ∀ msg, f b = Except.error msg →
      is_speech rmsOf (some f) st b = is_speech_energy rmsOf st b := by
    intro msg hmsg
    simp [is_speech, hmsg]
  have hedge : (b = [] ∨ b.length % 2 ≠ 0) →
      (is_speech_energy rmsOf st b).1 = false := by
    rintro (rfl | hodd)
    · rfl
    · simp [is_speech_energy, frombuffer_int16, hodd]
  refine ⟨fun h => ?_, fun h msg hmsg => ?_, hfall⟩
  · show (is_speech_energy rmsOf st b).1 = false
    exact hedge h
  · rw [hfall msg hmsg]
    exact hedge h

/-- C7 witness: a malformed one-byte frame, a detector that fails on it,
floor 300 with dynamic adjustment on. -/
theorem is_speech_edge_cases_and_fallback_witness :
    (is_speech (fun _ => (0 : ℚ)) none ⟨300, true⟩ [0]).1 = false ∧
    is_speech (fun _ => (0 : ℚ)) (some (fun _ => Except.error "boom"))
        ⟨300, true⟩ [0]
      = is_speech_energy (fun _ => (0 : ℚ)) ⟨300, true⟩ [0] :=
  ⟨(is_speech_edge_cases_and_fallback (fun _ => (0 : ℚ)) ⟨300, true⟩ [0]
      (fun _ => Except.error "boom")).1 (Or.inr (by decide)),
   (is_speech_edge_cases_and_fallback (fun _ => (0 : ℚ)) ⟨300, true⟩ [0]
      (fun _ => Except.error "boom")).2.2 "boom" rfl⟩

/-- C1: at the default configuration the lead-in pad is 1 frame, yet for
a speech onset at frame index 1 the utterance returned by the manual
capture path starts at the onset frame: the Silence chunk at index 0 is
not included, because the source draws the padding slice from its own
output list, which is still empty at the onset. -/
theorem capture_manual_drops_lead_in_padding :
    padFrames cfg16k = 1 ∧
    capture_manual_frames cfg16k none onsetInput true =
      [⟨[1], true⟩, ⟨[2], false⟩, ⟨[3], false⟩, ⟨[4], false⟩,
       ⟨[5], false⟩] ∧
    (⟨[0], false⟩ : AFrame) ∉ capture_manual_frames cfg16k none onsetInput true := by
  refine ⟨?_, ?_, ?_⟩
  · with_unfolding_all decide
  · with_unfolding_all decide
  · with_unfolding_all decide

/-- C2: in callback mode with `is_recording` set (as `start_stream`
leaves it), a capture window in which a single chunk arrives and no chunk
is classified Speech returns that chunk's bytes, a non-empty buffer
rather than the `None`/empty result the claim states; the manual path on
the same input does return `None`. -/
theorem capture_with_vad_timeout_returns_buffered_silence :
    capture_with_vad_exit true [⟨[0, 0], false⟩] = some [0, 0] ∧
    capture_with_vad_exit true [⟨[0, 0], false⟩] ≠ none ∧
    capture_manual cfg16k none [⟨[0, 0], false⟩] true = none := by
  refine ⟨?_, ?_, ?_⟩
  · with_unfolding_all decide
  · with_unfolding_all decide
  · with_unfolding_all decide

/-- C3: for `duration = 1/2` s at 16384 Hz mono with 1024-sample chunks,
`capture_audio` derives a cap of 16 frames and the manual path captures
exactly 16 all-Speech frames, double the `duration * sample_rate /
chunk_size = 8` frames the claim states. -/
theorem max_frames_doubles_spec_frame_count :
    max_frames_of cfg16384 (some (1 / 2)) = some 16 ∧
    capture_manual_frames cfg16384 (max_frames_of cfg16384 (some (1 / 2)))
      (List.replicate 20 speechChunk) false = List.replicate 16 speechChunk ∧
    (1 / 2 : ℚ) * cfg16384.sample_rate / cfg16384.chunk_size = 8 ∧
    (16 : ℚ) ≠ 8 := by
  refine ⟨?_, ?_, ?_, ?_⟩
  · with_unfolding_all decide
  · with_unfolding_all decide
  · with_unfolding_all decide
  · with_unfolding_all decide

/-- C4 counterexample: with frame duration 1/16 s and
`speech_pad_end = 1/8` s (an exact multiple), an utterance completes with
3 consecutive trailing Silence frames, exceeding the claimed bound
`ceil(speech_pad_end / frame_duration) = 2`. -/
theorem tail_silence_exceeds_ceil_bound :
    tailSilenceCount (capture_manual_frames cfg16384 none c4Input true) = 3 ∧
    ratCeil (cfg16384.speech_pad_end * cfg16384.sample_rate /
      cfg16384.chunk_size) = 2 ∧
    ¬ ((tailSilenceCount (capture_manual_frames cfg16384 none c4Input true) : Int)
        ≤ ratCeil (cfg16384.speech_pad_end * cfg16384.sample_rate /
            cfg16384.chunk_size)) := by
  refine ⟨?_, ?_, ?_⟩
  · with_unfolding_all decide
  · with_unfolding_all decide
  · with_unfolding_all decide

/-- Appending a frame resets or extends the trailing-silence run. -/
theorem tailSilenceCount_append (l : List AFrame) (f : AFrame) :
    tailSilenceCount (l ++ [f]) =
      if f.speech then 0 else tailSilenceCount l + 1 := by
  unfold tailSilenceCount
  rw [List.reverse_append]
  cases h : f.speech
  · simp [List.takeWhile_cons, h]
  · simp [List.takeWhile_cons, h]

/-- Loop invariant for the end-of-speech hysteresis of
`_capture_manual`: whenever the trailing-silence run of the accumulated
list is covered by the `silence_frames` counter and the counter's
duration has not yet exceeded `speech_pad_end`, every exit of the loop
leaves a trailing-silence duration of at most `speech_pad_end` plus one
frame duration. -/
theorem capture_manual_loop_tail_silence (cfg : MCfg) (mf : Option Nat)
    (hc : 0 < cfg.chunk_size) (hr : 0 < cfg.sample_rate)
    (hp : 0 ≤ cfg.speech_pad_end) :
    ∀ (input : List AFrame) (sd : Bool) (sil : ℕ) (frames : List AFrame),
      tailSilenceCount frames ≤ sil →
      (sil : ℚ) * cfg.chunk_size / cfg.sample_rate ≤ cfg.speech_pad_end →
      (tailSilenceCount (capture_manual_loop cfg mf input sd sil frames) : ℚ) *
          cfg.chunk_size / cfg.sample_rate
        ≤ cfg.speech_pad_end + cfg.chunk_size / cfg.sample_rate := by
  have hq : 0 < cfg.chunk_size / cfg.sample_rate := div_pos hc hr
  have mono : ∀ a b : ℕ, a ≤ b →
      (a : ℚ) * cfg.chunk_size / cfg.sample_rate ≤
        (b : ℚ) * cfg.chunk_size / cfg.sample_rate := by
    intro a b hab
    rw [mul_div_assoc, mul_div_assoc]
    exact mul_le_mul_of_nonneg_right (by exact_mod_cast hab) hq.le
  have hstep : ∀ s : ℕ, ((s + 1 : ℕ) : ℚ) * cfg.chunk_size / cfg.sample_rate =
      (s : ℚ) * cfg.chunk_size / cfg.sample_rate +
        cfg.chunk_size / cfg.sample_rate := by
    intro s
    push_cast
    ring
  have final : ∀ (fr : List AFrame) (s : ℕ), tailSilenceCount fr ≤ s →
      (s : ℚ) * cfg.chunk_size / cfg.sample_rate ≤
        cfg.speech_pad_end + cfg.chunk_size / cfg.sample_rate →
      (tailSilenceCount fr : ℚ) * cfg.chunk_size / cfg.sample_rate ≤
        cfg.speech_pad_end + cfg.chunk_size / cfg.sample_rate :=
    fun fr s h1 h2 => le_trans (mono _ _ h1) h2
  intro input
  induction input with
  | nil =>
      intro sd sil frames h1 h2
      exact final frames sil h1 (le_trans h2 (le_add_of_nonneg_right hq.le))
  | cons f rest ih =>
      intro sd sil frames h1 h2
      simp only [capture_manual_loop]
      cases hF : f.speech
      · cases hD : sd
        · show (tailSilenceCount
            (if maxFramesReached mf frames.length then frames
             else capture_manual_loop cfg mf rest false sil frames) : ℚ) *
              cfg.chunk_size / cfg.sample_rate ≤ _
          split
          · exact final frames sil h1 (le_trans h2 (le_add_of_nonneg_right hq.le))
          · exact ih false sil frames h1 h2
        · have ht2 : tailSilenceCount (frames ++ [f]) ≤ sil + 1 := by
            rw [tailSilenceCount_append, hF]
            exact Nat.succ_le_succ h1
          show (tailSilenceCount
            (if ((sil + 1 : ℕ) : ℚ) * cfg.chunk_size / cfg.sample_rate >
                cfg.speech_pad_end then frames ++ [f]
             else if maxFramesReached mf (frames ++ [f]).length then frames ++ [f]
             else capture_manual_loop cfg mf rest true (sil + 1) (frames ++ [f])) : ℚ) *
              cfg.chunk_size / cfg.sample_rate ≤ _
          by_cases hbr : ((sil + 1 : ℕ) : ℚ) * cfg.chunk_size /
              cfg.sample_rate > cfg.speech_pad_end
          · rw [if_pos hbr]
            refine final _ (sil + 1) ht2 ?_
            rw [hstep]
            exact add_le_add_right h2 _
          · rw [if_neg hbr]
            have hle := not_lt.mp hbr
            split
            · exact final _ (sil + 1) ht2
                (le_trans hle (le_add_of_nonneg_right hq.le))
            · exact ih true (sil + 1) (frames ++ [f]) ht2 hle
      · have ht2 : ∀ fr : List AFrame, tailSilenceCount (fr ++ [f]) = 0 := by
          intro fr
          rw [tailSilenceCount_append, hF]
          exact rfl
        have hnb : ¬ (((0 : ℕ) : ℚ) * cfg.chunk_size / cfg.sample_rate >
            cfg.speech_pad_end) := by
          push_cast
          rw [zero_mul, zero_div]
          exact not_lt.mpr hp
        have hzero : ∀ fr : List AFrame,
            (tailSilenceCount (fr ++ [f]) : ℚ) * cfg.chunk_size /
              cfg.sample_rate ≤
            cfg.speech_pad_end + cfg.chunk_size / cfg.sample_rate := by
          intro fr
          rw [ht2]
          push_cast
          rw [zero_mul, zero_div]
          exact add_nonneg hp hq.le
        cases hD : sd
        · show (tailSilenceCount
            (if ((0 : ℕ) : ℚ) * cfg.chunk_size / cfg.sample_rate >
                cfg.speech_pad_end then
              (frames ++ pySliceTail frames (padFrames cfg)) ++ [f]
             else if maxFramesReached mf
                ((frames ++ pySliceTail frames (padFrames cfg)) ++ [f]).length then
              (frames ++ pySliceTail frames (padFrames cfg)) ++ [f]
             else capture_manual_loop cfg mf rest true 0
               ((frames ++ pySliceTail frames (padFrames cfg)) ++ [f])) : ℚ) *
              cfg.chunk_size / cfg.sample_rate ≤ _
          rw [if_neg hnb]
          split
          · exact hzero _
          · refine ih true 0 _ (le_of_eq (ht2 _)) ?_
            push_cast
            rw [zero_mul, zero_div]
            exact hp
        · show (tailSilenceCount
            (if ((0 : ℕ) : ℚ) * cfg.chunk_size / cfg.sample_rate >
                cfg.speech_pad_end then frames ++ [f]
             else if maxFramesReached mf (frames ++ [f]).length then frames ++ [f]
             else capture_manual_loop cfg mf rest true 0 (frames ++ [f])) : ℚ) *
              cfg.chunk_size / cfg.sample_rate ≤ _
          rw [if_neg hnb]
          split
          · exact hzero _
          · refine ih true 0 _ (le_of_eq (ht2 _)) ?_
            push_cast
            rw [zero_mul, zero_div]
            exact hp

/-- C4 amended: on every exit of the manual capture path the tail of the
returned utterance holds at most `floor(speech_pad_end / frame_duration)
+ 1` consecutive Silence frames, i.e. its trailing-silence duration is at
most `speech_pad_end` plus one frame duration (the `ceil` bound of the
claim holds except when `speech_pad_end` is an exact multiple of the
frame duration, where one more frame is kept). -/
theorem tail_silence_duration_bounded (cfg : MCfg) (mf : Option Nat)
    (input : List AFrame) (w : Bool) (hc : 0 < cfg.chunk_size)
    (hr : 0 < cfg.sample_rate) (hp : 0 ≤ cfg.speech_pad_end) :
    (tailSilenceCount (capture_manual_frames cfg mf input w) : ℚ) *
        cfg.chunk_size / cfg.sample_rate
      ≤ cfg.speech_pad_end + cfg.chunk_size / cfg.sample_rate := by
  refine capture_manual_loop_tail_silence cfg mf hc hr hp input (!w) 0 []
    ?_ ?_
  · exact Nat.le_refl 0
  · rw [Nat.cast_zero, zero_mul, zero_div]
    exact hp

/-- C4 amended witness: concrete evaluation of the bound at the
counterexample configuration and input. -/
theorem tail_silence_duration_bounded_witness :
    (tailSilenceCount (capture_manual_frames cfg16384 none c4Input true) : ℚ) *
        cfg16384.chunk_size / cfg16384.sample_rate
      ≤ cfg16384.speech_pad_end + cfg16384.chunk_size / cfg16384.sample_rate :=
  tail_silence_duration_bounded cfg16384 none c4Input true
    (by with_unfolding_all decide) (by with_unfolding_all decide)
    (by with_unfolding_all decide)

/-- C8: `stop_stream` is idempotent: a second call returns exactly the
state the first call produced and performs no release action (the first
call already cleared the stream and PyAudio handles, so neither close nor
terminate runs again), and after a call both handles are cleared. -/
theorem stop_stream_idempotent (s : Session) :
    stop_stream (stop_stream s).1 = ((stop_stream s).1, []) ∧
    (stop_stream s).1.stream = none ∧
    (stop_stream s).1.pa_instance = none :=
  ⟨rfl, rfl, rfl⟩

/-- C9: when no stream is open, `capture_audio` attempts `start_stream`,
and whenever the attempt fails — PyAudio unavailable or the device open
raising (the caught branch) — it returns `None` rather than an
exception. -/
theorem capture_audio_none_on_failed_start (cfg : MCfg) (env : AudioEnv)
    (s : Session) (d : Option ℚ) (w : Bool) (inc : List AFrame)
    (h1 : s.stream = none)
    (h2 : env.pyaudio_available = false ∨ env.open_succeeds = false) :
    (capture_audio_model cfg env s d w inc).1 = none := by
  have hs : s.stream.isNone = true := by rw [h1]; rfl
  rcases h2 with h2 | h2
  · simp [capture_audio_model, start_stream, hs, h2]
  · by_cases h3 : env.pyaudio_available = false
    · simp [capture_audio_model, start_stream, hs, h3]
    · simp [capture_audio_model, start_stream, hs, h3, h2, h1]

/-- C9 witness: a closed session with PyAudio unavailable. -/
theorem capture_audio_none_on_failed_start_witness :
    (capture_audio_model cfg16k ⟨false, true⟩ ⟨none, none, false, false, []⟩
        none true []).1 = none :=
  capture_audio_none_on_failed_start cfg16k ⟨false, true⟩
    ⟨none, none, false, false, []⟩ none true [] rfl (Or.inl rfl)

/-- C10: `save_audio` on absent or empty audio data returns `False` and
writes no file; conversely whenever it returns `True`, the audio data was
a non-empty byte string and the written WAV file carries the configured
channel count, 2-byte sample width, configured frame rate, and exactly
those bytes. -/
theorem save_audio_requires_nonempty_audio (cfg : MCfg) (ok : Bool)
    (a : Option (List Nat)) :
    ((a = none ∨ a = some []) → save_audio cfg ok a = (false, none)) ∧
    ((save_audio cfg ok a).1 = true →
      ∃ d, d ≠ [] ∧ a = some d ∧
        (save_audio cfg ok a).2 =
          some ⟨cfg.channels, 2, cfg.sample_rate, d⟩) := by
  constructor
  · rintro (rfl | rfl) <;> rfl
  · intro h
    cases a with
    | none => exact Bool.noConfusion h
    | some d =>
        cases d with
        | nil => exact Bool.noConfusion h
        | cons b rest =>
            cases ok
            · exact Bool.noConfusion h
            · exact ⟨b :: rest, by simp, rfl, rfl⟩

/-- C10 witness: empty audio data with a writable filesystem. -/
theorem save_audio_requires_nonempty_audio_witness :
    save_audio cfg16k true (some []) = (false, none) :=
  (save_audio_requires_nonempty_audio cfg16k true (some [])).1 (Or.inr rfl)
